import Mathlib

/-!
Verification of the `light` repository (Python) against its specification.

The Python sources are shallowly embedded: pure functions become Lean
functions, mutating methods become explicit state passing, wall-clock time
becomes an explicit stream of sampled instants, and Python exceptions become
`Except` values.  `datetime` values and `float` arithmetic are modelled with
exact rationals (`ℚ`); Python's `int()` conversion is truncation toward zero.
-/

set_option maxHeartbeats 1000000

namespace Light

/-- Truncation toward zero: the semantics of Python's `int()` applied to a
(rational-valued) number. -/
def ratTrunc (q : ℚ) : Int := if q < 0 then ⌈q⌉ else ⌊q⌋

/-- `State._value` from `src/transition.py`:
`int(_a * weight_a + _b * (1 - weight_a))`. -/
def State._value (a b : Int) (weight_a : ℚ) : Int :=
  ratTrunc (a * weight_a + b * (1 - weight_a))

theorem ratTrunc_intCast (n : Int) : ratTrunc (n : ℚ) = n := by
  unfold ratTrunc
  by_cases h : (n : ℚ) < 0
  · simp [h]
  · simp [h]

theorem ratTrunc_mono {x y : ℚ} (h : x ≤ y) : ratTrunc x ≤ ratTrunc y := by
  unfold ratTrunc
  by_cases hx : x < 0
  · by_cases hy : y < 0
    · simpa [hx, hy] using Int.ceil_mono h
    · simp only [hx, hy, if_true, if_false]
      calc ⌈x⌉ ≤ 0 := Int.ceil_le.mpr (by exact_mod_cast hx.le)
        _ ≤ ⌊y⌋ := Int.floor_nonneg.mpr (le_of_not_lt hy)
  · have hy : ¬y < 0 := fun hy => hx (lt_of_le_of_lt h hy)
    simpa [hx, hy] using Int.floor_mono h

theorem ratTrunc_of_nonneg {q : ℚ} (h : 0 ≤ q) : ratTrunc q = ⌊q⌋ := by
  unfold ratTrunc
  simp [not_lt.mpr h]

theorem State._value_one (a b : Int) : State._value a b 1 = a := by
  unfold State._value
  have : (a : ℚ) * 1 + b * (1 - 1) = (a : ℚ) := by ring
  rw [this, ratTrunc_intCast]

theorem State._value_zero (a b : Int) : State._value a b 0 = b := by
  unfold State._value
  have : (a : ℚ) * 0 + b * (1 - 0) = (b : ℚ) := by ring
  rw [this, ratTrunc_intCast]

/-- The rounding behaviour the spec claims for `_value`: round toward the
destination `b`, i.e. round down when `a < b` and round up when `a > b`. -/
def claimedValue (a b : Int) (w : ℚ) : Int :=
  if a < b then ⌊(a : ℚ) * w + b * (1 - w)⌋
  else if b < a then ⌈(a : ℚ) * w + b * (1 - w)⌉
  else a

/-- C2 counterexample: at `a = 2 > b = 0`, weight `3/4`, the exact value is
`3/2`; the claimed round-up would give `2`, but `int()` truncates to `1`. -/
theorem C2_counterexample : State._value 2 0 (3 / 4) ≠ claimedValue 2 0 (3 / 4) := by
  have h1 : State._value 2 0 (3 / 4) = 1 := by
    unfold State._value ratTrunc
    norm_num
  have h2 : claimedValue 2 0 (3 / 4) = 2 := by
    unfold claimedValue
    norm_num
    rw [Int.ceil_eq_iff]
    norm_num
  rw [h1, h2]
  decide

/-- C2 (amended): `avg`'s scalar helper `_value` computes
`a * w + b * (1 - w)` and truncates it toward zero — in particular it rounds
down (floor) whenever the exact value is non-negative, also when `a > b`,
rather than rounding up — and evaluation at `w = 0` yields exactly `b` (and at
`w = 1` exactly `a`). -/
theorem C2_value_truncates_toward_zero (a b : Int) (w : ℚ) :
    State._value a b w = ratTrunc ((a : ℚ) * w + b * (1 - w)) ∧
    State._value a b 0 = b ∧
    State._value a b 1 = a ∧
    (0 ≤ (a : ℚ) * w + b * (1 - w) →
      State._value a b w = ⌊(a : ℚ) * w + b * (1 - w)⌋) := by
  refine ⟨rfl, State._value_zero a b, State._value_one a b, fun h => ?_⟩
  unfold State._value
  exact ratTrunc_of_nonneg h

/-- C2 witness: the amended rounding evaluated at `a = 2`, `b = 0`,
`w = 3/4`, whose exact value `3/2` is non-negative and floors to `1`. -/
theorem C2_value_truncates_toward_zero_witness :
    (0 ≤ (2 : ℚ) * (3 / 4) + (0 : Int) * (1 - 3 / 4)) ∧
    State._value 2 0 (3 / 4) = ⌊(2 : ℚ) * (3 / 4) + (0 : Int) * (1 - 3 / 4)⌋ := by
  refine ⟨by norm_num, ?_⟩
  exact (C2_value_truncates_toward_zero 2 0 (3 / 4)).2.2.2 (by norm_num)

/-- C7: `avg`'s scalar helper returns exactly `a` at `w = 1`, exactly `b` at
`w = 0`, and is monotonic in `w` between the endpoints: non-decreasing toward
`a` as `w` grows when `a ≥ b`, non-increasing when `a ≤ b`. -/
theorem C7_value_endpoints_monotone (a b : Int) (w w' : ℚ)
    (_hw0 : 0 ≤ w) (_hw1 : w' ≤ 1) (hww : w ≤ w') :
    State._value a b 1 = a ∧
    State._value a b 0 = b ∧
    (b ≤ a → State._value a b w ≤ State._value a b w') ∧
    (a ≤ b → State._value a b w' ≤ State._value a b w) := by
  refine ⟨State._value_one a b, State._value_zero a b, fun hba => ?_, fun hab => ?_⟩
  · apply ratTrunc_mono
    have hba' : (b : ℚ) ≤ (a : ℚ) := by exact_mod_cast hba
    nlinarith
  · apply ratTrunc_mono
    have hab' : (a : ℚ) ≤ (b : ℚ) := by exact_mod_cast hab
    nlinarith

/-- C7 witness: concrete endpoints `a = 7`, `b = 2` and weights
`w = 1/4 ≤ w' = 1/2`. -/
theorem C7_value_endpoints_monotone_witness :
    State._value 7 2 1 = 7 ∧
    State._value 7 2 0 = 2 ∧
    ((2 : Int) ≤ 7 → State._value 7 2 (1 / 4) ≤ State._value 7 2 (1 / 2)) ∧
    ((7 : Int) ≤ 2 → State._value 7 2 (1 / 2) ≤ State._value 7 2 (1 / 4)) :=
  C7_value_endpoints_monotone 7 2 (1 / 4) (1 / 2) (by norm_num) (by norm_num)
    (by norm_num)

/-! Embedding of `Transition` from `src/transition.py`.  Wall-clock time is
modelled by the explicit stream `nows` of instants returned by successive
`datetime.now()` calls inside the polling loop; `time.sleep(1)` merely
advances that stream.  Whether a `state.apply()` call succeeds or raises is
modelled by an oracle indexed by the number of apply attempts made so far. -/

inductive RunErr where
  | zeroDivision
  | progressNegative
  | fuelExhausted
deriving DecidableEq

/-- An apply attempt recorded during a run: the state handed to
`state.apply()` and whether that call succeeded (`true`) or raised
(`false`). -/
structure ApplyEvent (σ : Type) where
  state : σ
  ok : Bool
deriving DecidableEq

/-- The part of the `State` interface `Transition` uses: `__eq__` and
`avg`. -/
structure StateOps (σ : Type) where
  eq : σ → σ → Bool
  avg : σ → σ → ℚ → σ

/-- The guard `self.__state is not None and self.__state == state` of
`Transition.__tick`. -/
def markerMatches (M : StateOps σ) (marker : Option σ) (s : σ) : Bool :=
  match marker with
  | some m => M.eq m s
  | none => false

/-- `Transition.__tick`: `marker` is the field `self.__state` (the last
successfully applied state), `attempts` counts apply attempts so far (it
indexes the success oracle).  Returns the new marker, the method's boolean
result, the new attempt count and the apply events performed. -/
def Transition.tick (M : StateOps σ) (oracle : Nat → Bool)
    (fromState toState : σ) (marker : Option σ) (attempts : Nat)
    (progress : ℚ) : Option σ × Bool × Nat × List (ApplyEvent σ) :=
  let state := M.avg fromState toState (1 - progress)
  if markerMatches M marker state then
    (marker, true, attempts, [])
  else if oracle attempts then
    (some state, true, attempts + 1, [⟨state, true⟩])
  else
    (marker, false, attempts + 1, [⟨state, false⟩])

/-- The `while True` polling loop of `Transition.run`.  An exhausted clock
stream is reported as `fuelExhausted` (the real loop always has a next
`datetime.now()`). -/
def Transition.runLoop (M : StateOps σ) (oracle : Nat → Bool)
    (fromState toState : σ) (fromTime intervalSeconds timeoutSeconds : ℚ) :
    List ℚ → Option σ → Option ℚ → Nat → List (ApplyEvent σ) →
    Except RunErr (Option σ × List (ApplyEvent σ))
  | [], _, _, _, _ => .error .fuelExhausted
  | now :: rest, marker, lastUpdate, attempts, evs =>
    -- Python float division raises ZeroDivisionError on a zero divisor
    if intervalSeconds = 0 then .error .zeroDivision
    else
      let progress := (now - fromTime) / intervalSeconds
      if progress < 0 then .error .progressNegative
      else if 1 ≤ progress then
        let r := Transition.tick M oracle fromState toState marker attempts 1
        .ok (r.1, evs ++ r.2.2.2)
      else if (match lastUpdate with
               | none => true
               | some lu => decide (timeoutSeconds ≤ now - lu)) = true then
        let r := Transition.tick M oracle fromState toState marker attempts progress
        Transition.runLoop M oracle fromState toState fromTime intervalSeconds
          timeoutSeconds rest r.1 (if r.2.1 then some now else lastUpdate)
          r.2.2.1 (evs ++ r.2.2.2)
      else
        Transition.runLoop M oracle fromState toState fromTime intervalSeconds
          timeoutSeconds rest marker lastUpdate attempts evs

/-- `Transition.run` from `src/transition.py` (`timeout_seconds = 3`). -/
def Transition.run (M : StateOps σ) (oracle : Nat → Bool)
    (fromState toState : σ) (fromTime toTime : ℚ) (nows : List ℚ) :
    Except RunErr (Option σ × List (ApplyEvent σ)) :=
  let intervalSeconds := toTime - fromTime
  if intervalSeconds < 0 then
    let r := Transition.tick M oracle fromState toState none 0 0
    .ok (r.1, r.2.2.2)
  else
    Transition.runLoop M oracle fromState toState fromTime intervalSeconds 3
      nows none none 0 []

/-- `WhiteState` from `src/mode.py` (the bulb reference does not affect
equality or `avg` and is omitted). -/
structure WhiteState where
  temperature : Int
  brightness : Int
deriving DecidableEq

/-- `WhiteState.__eq__`. -/
def WhiteState.eq (a other : WhiteState) : Bool :=
  a.temperature == other.temperature && a.brightness == other.brightness

/-- `WhiteState.avg`. -/
def WhiteState.avg (a b : WhiteState) (weight_a : ℚ) : WhiteState :=
  ⟨State._value a.temperature b.temperature weight_a,
   State._value a.brightness b.brightness weight_a⟩

/-- `WhiteState` as a `StateOps` instance for `Transition`. -/
def WhiteState.ops : StateOps WhiteState :=
  ⟨WhiteState.eq, WhiteState.avg⟩

theorem WhiteState.avg_one (a b : WhiteState) : WhiteState.avg a b 1 = a := by
  cases a
  cases b
  simp [WhiteState.avg, State._value_one]

/-- C3: when the destination time is strictly before the start time,
`Transition.run` performs exactly one apply attempt, of the state
`avg(from_state, to_state, weight 1)`, and returns normally without entering
the polling loop (the clock stream is never consulted) and without raising;
for `WhiteState`, `avg` at weight `1` is exactly the `from` state. -/
theorem C3_negative_interval_single_apply (σ : Type) (M : StateOps σ)
    (oracle : Nat → Bool) (fromState toState : σ) (fromTime toTime : ℚ)
    (nows : List ℚ) (a b : WhiteState) (h : toTime < fromTime) :
    Transition.run M oracle fromState toState fromTime toTime nows =
      .ok ((if oracle 0 then some (M.avg fromState toState 1) else none),
           [⟨M.avg fromState toState 1, oracle 0⟩]) ∧
    WhiteState.avg a b 1 = a := by
  constructor
  · have hneg : toTime - fromTime < 0 := by linarith
    unfold Transition.run Transition.tick markerMatches
    simp only [if_pos hneg]
    cases h0 : oracle 0 <;> simp [h0]
  · exact WhiteState.avg_one a b

/-- C3 witness: a concrete `WhiteState` transition whose destination time `5`
precedes its start time `10`; with an always-succeeding apply it performs the
single apply of the exact `from` state. -/
theorem C3_negative_interval_single_apply_witness :
    Transition.run WhiteState.ops (fun _ => true) ⟨2700, 80⟩ ⟨4000, 10⟩ 10 5
        [] =
      .ok ((if (fun _ : Nat => true) 0 then
              some (WhiteState.ops.avg ⟨2700, 80⟩ ⟨4000, 10⟩ 1)
            else none),
           [⟨WhiteState.ops.avg ⟨2700, 80⟩ ⟨4000, 10⟩ 1, (fun _ : Nat => true) 0⟩]) ∧
    WhiteState.avg ⟨2700, 80⟩ ⟨4000, 10⟩ 1 = ⟨2700, 80⟩ :=
  C3_negative_interval_single_apply WhiteState WhiteState.ops (fun _ => true)
    ⟨2700, 80⟩ ⟨4000, 10⟩ 10 5 [] ⟨2700, 80⟩ ⟨4000, 10⟩ (by norm_num)

/-- C8: the inconsistent-interval guard covers only strictly negative
intervals; with a zero-length interval (`to_time = from_time`) `run` reaches
the progress computation on the first loop iteration and raises
`ZeroDivisionError` before applying any state. -/
theorem C8_zero_interval_zero_division (σ : Type) (M : StateOps σ)
    (oracle : Nat → Bool) (fromState toState : σ) (fromTime : ℚ) (now : ℚ)
    (rest : List ℚ) :
    Transition.run M oracle fromState toState fromTime fromTime (now :: rest) =
      .error .zeroDivision := by
  unfold Transition.run Transition.runLoop
  norm_num

/-- C4: during a running transition (progress in `[0, 1)`, an update being
due), a failed apply is caught: the loop continues on the rest of the clock
stream with the last-applied marker, the last-update time and the pending
blend unchanged — so the same blended state is attempted again on a later
tick and the transition is not aborted; and a blended state matching the
last successfully-applied state is never re-applied (no apply event, marker
kept). -/
theorem C4_apply_failure_resilient (σ : Type) (M : StateOps σ)
    (oracle : Nat → Bool) (fromState toState : σ)
    (fromTime intervalSeconds timeoutSeconds now : ℚ) (rest : List ℚ)
    (marker : Option σ) (lastUpdate : Option ℚ) (attempts : Nat)
    (evs : List (ApplyEvent σ)) (hint : intervalSeconds ≠ 0)
    (h0 : 0 ≤ (now - fromTime) / intervalSeconds)
    (h1 : (now - fromTime) / intervalSeconds < 1)
    (hdue : (match lastUpdate with
             | none => true
             | some lu => decide (timeoutSeconds ≤ now - lu)) = true) :
    (markerMatches M marker
        (M.avg fromState toState (1 - (now - fromTime) / intervalSeconds)) =
          false →
      oracle attempts = false →
      Transition.runLoop M oracle fromState toState fromTime intervalSeconds
          timeoutSeconds (now :: rest) marker lastUpdate attempts evs =
        Transition.runLoop M oracle fromState toState fromTime intervalSeconds
          timeoutSeconds rest marker lastUpdate (attempts + 1)
          (evs ++ [⟨M.avg fromState toState
                      (1 - (now - fromTime) / intervalSeconds), false⟩])) ∧
    (markerMatches M marker
        (M.avg fromState toState (1 - (now - fromTime) / intervalSeconds)) =
          true →
      Transition.runLoop M oracle fromState toState fromTime intervalSeconds
          timeoutSeconds (now :: rest) marker lastUpdate attempts evs =
        Transition.runLoop M oracle fromState toState fromTime intervalSeconds
          timeoutSeconds rest marker (some now) attempts evs) := by
  have hnotneg : ¬((now - fromTime) / intervalSeconds < 0) := not_lt.mpr h0
  have hnotge : ¬(1 ≤ (now - fromTime) / intervalSeconds) := not_le.mpr h1
  constructor
  · intro hmk hor
    simp only [Transition.runLoop, if_neg hint, if_neg hnotneg,
      if_neg hnotge, hdue, if_pos, Transition.tick, hmk, hor,
      Bool.false_eq_true, if_false]
  · intro hmk
    simp only [Transition.runLoop, if_neg hint, if_neg hnotneg,
      if_neg hnotge, hdue, if_pos, Transition.tick, hmk, if_true,
      List.append_nil]

/-- C4 witness: a concrete `WhiteState` transition at progress `1/2` whose
first apply attempt fails: the loop continues with an unchanged `none` marker
and the failure recorded. -/
theorem C4_apply_failure_resilient_witness :
    Transition.runLoop WhiteState.ops (fun _ => false) ⟨2700, 80⟩ ⟨4000, 10⟩ 0
        10 3 [5] none none 0 [] =
      Transition.runLoop WhiteState.ops (fun _ => false) ⟨2700, 80⟩ ⟨4000, 10⟩
        0 10 3 [] none none 1
        [⟨WhiteState.ops.avg ⟨2700, 80⟩ ⟨4000, 10⟩ (1 - (5 - 0) / 10),
          false⟩] :=
  (C4_apply_failure_resilient WhiteState WhiteState.ops (fun _ => false)
      ⟨2700, 80⟩ ⟨4000, 10⟩ 0 10 3 5 [] none none 0 [] (by norm_num)
      (by norm_num) (by norm_num) rfl).1 rfl rfl

/-! Embedding of `src/command.py`.  A `Cmd` records the shape of the
`Command` object a `get` call returns: `options` is an `OptionsCommand` with
its option list, `multi` is a `MultiCommand` of `BulbCommand`s (each device
paired with the `Mode` built for it), and `base tag` stands for an arbitrary
terminal `Command` wrapped by a `SingleCommander`. -/

inductive Cmd (β γ : Type) where
  | options (opts : List String)
  | multi (commands : List (β × γ))
  | base (tag : String)
deriving DecidableEq

/-- An `Argument` from `src/command.py`: its `convert` and `options`
methods. -/
structure ArgSpec (α : Type) where
  convert : String → Option α
  options : List String

/-- Outcomes of the conversion loop of `ArgumentsCommander.get`:
`badToken opts` is an early `return OptionsCommand(...)`, `indexError` the
(unreachable) Python `IndexError` from `self.__arguments[i]`. -/
inductive ConvErr where
  | badToken (opts : List String)
  | indexError
deriving DecidableEq

/-- The `for i in range(len(keys))` loop of `ArgumentsCommander.get`:
convert `keys[i]` with `self.__arguments[i]`; the first failed conversion
short-circuits with that position's options; successes are appended to
`acc`. -/
def ArgumentsCommander.convertLoop (args : List (ArgSpec α))
    (keys : List String) (i : Nat) (acc : List α) :
    Except ConvErr (List α) :=
  match hk : keys[i]? with
  | none => .ok acc
  | some k =>
    match args[i]? with
    | none => .error .indexError
    | some a =>
      match a.convert k with
      | none => .error (.badToken a.options)
      | some v => ArgumentsCommander.convertLoop args keys (i + 1) (acc ++ [v])
termination_by keys.length - i
decreasing_by
  have hi : i < keys.length := by
    by_contra hge
    rw [List.getElem?_eq_none (le_of_not_lt hge)] at hk
    exact Option.noConfusion hk
  omega

/-- `ArgumentsCommander.get` from `src/command.py`. -/
def ArgumentsCommander.get (bulbs : List β) (args : List (ArgSpec α))
    (getMode : β → List α → γ) (keys : List String) :
    Except ConvErr (Cmd β γ) :=
  if keys.length > args.length then .ok (.options [])
  else
    match ArgumentsCommander.convertLoop args keys 0 [] with
    | .error (.badToken opts) => .ok (.options opts)
    | .error .indexError => .error .indexError
    | .ok arguments =>
      if arguments.length < args.length then
        match args[arguments.length]? with
        | some a => .ok (.options a.options)
        | none => .error .indexError
      else
        .ok (.multi (bulbs.map (fun bulb => (bulb, getMode bulb arguments))))

/-- Token conversion as the spec's sentence states it: tokens are converted
left to right against the argument specs and the first failure
short-circuits with that position's options. -/
def specConvert (args : List (ArgSpec α)) (keys : List String) :
    Except (List String) (List α) :=
  match args, keys with
  | _, [] => .ok []
  | [], _ :: _ => .ok []
  | a :: args', k :: keys' =>
    match a.convert k with
    | none => .error a.options
    | some v =>
      match specConvert args' keys' with
      | .error e => .error e
      | .ok vs => .ok (v :: vs)

/-- The behaviour C1 claims for `ArgumentsCommander.get`, stated as the spec
words it: too many tokens gives empty options; a failed conversion gives
that position's options; too few (all converting) gives the next unfilled
position's options; a full valid token list fans out one `BulbCommand` per
configured device with the mode `get_mode` builds from the converted
arguments. -/
def specArgumentsGet (bulbs : List β) (args : List (ArgSpec α))
    (getMode : β → List α → γ) (keys : List String) : Cmd β γ :=
  if keys.length > args.length then .options []
  else
    match specConvert args keys with
    | .error opts => .options opts
    | .ok vs =>
      if vs.length < args.length then
        .options ((args[vs.length]?.map ArgSpec.options).getD [])
      else
        .multi (bulbs.map (fun bulb => (bulb, getMode bulb vs)))

theorem convertLoop_eq_specConvert (args : List (ArgSpec α))
    (keys : List String) :
    ∀ (N i : Nat) (acc : List α), keys.length - i = N →
      keys.length ≤ args.length →
      ArgumentsCommander.convertLoop args keys i acc =
        match specConvert (args.drop i) (keys.drop i) with
        | .error opts => .error (.badToken opts)
        | .ok vs => .ok (acc ++ vs) := by
  intro N
  induction N with
  | zero =>
    intro i acc hN _hlen
    have hi : keys.length ≤ i := by omega
    rw [ArgumentsCommander.convertLoop]
    rw [List.getElem?_eq_none hi, List.drop_eq_nil_of_le hi]
    cases args.drop i <;> simp [specConvert]
  | succ N ih =>
    intro i acc hN hlen
    have hik : i < keys.length := by omega
    have hia : i < args.length := by omega
    rw [ArgumentsCommander.convertLoop]
    rw [List.getElem?_eq_getElem hik, List.getElem?_eq_getElem hia]
    rw [List.drop_eq_getElem_cons hik, List.drop_eq_getElem_cons hia]
    simp only [specConvert]
    cases hc : (args[i]).convert keys[i] with
    | none => simp
    | some v =>
      dsimp only
      rw [ih (i + 1) (acc ++ [v]) (by omega) hlen]
      cases hs : specConvert (args.drop (i + 1)) (keys.drop (i + 1)) with
      | error e => simp
      | ok vs => simp

theorem specConvert_ok_length (args : List (ArgSpec α)) (keys : List String)
    (vs : List α) (hlen : keys.length ≤ args.length)
    (h : specConvert args keys = .ok vs) : vs.length = keys.length := by
  induction args generalizing keys vs with
  | nil =>
    cases keys with
    | nil =>
      simp only [specConvert] at h
      cases h
      rfl
    | cons k ks => simp at hlen
  | cons a args' ih =>
    cases keys with
    | nil =>
      simp only [specConvert] at h
      cases h
      rfl
    | cons k ks =>
      simp only [specConvert] at h
      cases hc : a.convert k with
      | none => rw [hc] at h; cases h
      | some v =>
        rw [hc] at h
        cases hs : specConvert args' ks with
        | error e => rw [hs] at h; cases h
        | ok vs' =>
          rw [hs] at h
          cases h
          have := ih ks vs' (by simpa using hlen) hs
          simp [this]

/-- C1: `ArgumentsCommander.get` behaves exactly as the spec describes — too
many tokens give an empty-options Command; tokens convert left to right and
the first failure returns that position's options; all-converting but too
few tokens return the next unfilled position's options; only a full valid
token list yields a `MultiCommand` with one `BulbCommand` per configured
device wrapping the mode `get_mode` builds from the converted arguments (and
no `IndexError` is ever raised). -/
theorem C1_arguments_commander_get (β γ α : Type) (bulbs : List β)
    (args : List (ArgSpec α)) (getMode : β → List α → γ)
    (keys : List String) :
    ArgumentsCommander.get bulbs args getMode keys =
      .ok (specArgumentsGet bulbs args getMode keys) := by
  unfold ArgumentsCommander.get specArgumentsGet
  by_cases hlen : keys.length > args.length
  · simp [hlen]
  · have hle : keys.length ≤ args.length := le_of_not_lt hlen
    simp only [hlen, if_false]
    rw [convertLoop_eq_specConvert args keys (keys.length - 0) 0 [] rfl hle]
    simp only [List.drop_zero]
    cases hs : specConvert args keys with
    | error opts => simp
    | ok vs =>
      have hvs : vs.length = keys.length := specConvert_ok_length args keys vs hle hs
      simp only [List.nil_append]
      by_cases hfew : vs.length < args.length
      · have : vs.length < args.length := hfew
        rw [List.getElem?_eq_getElem (hvs ▸ this)]
        simp [hfew, List.getElem?_eq_getElem this]
      · simp [hfew]

/-- `SingleCommander.get` from `src/command.py`: the wrapped command on zero
remaining tokens, an empty-options Command on the single remaining token
`"help"`, otherwise the unresolved-option(s) exception. -/
def SingleCommander.get (command : Cmd β γ) (keys : List String) :
    Except String (Cmd β γ) :=
  if keys = [] then .ok command
  else if keys = ["help"] then .ok (.options [])
  else .error ("Unknown option(s): " ++ String.intercalate " " keys)

/-- `TreeCommander.get` from `src/command.py`: child commanders are embedded
as their `get` functions, keyed by name (the association list mirrors the
Python dict, whose insertion order the options listing preserves). -/
def TreeCommander.get
    (commanders : List (String × (List String → Except String (Cmd β γ))))
    (keys : List String) : Except String (Cmd β γ) :=
  match keys with
  | k :: rest =>
    match commanders.find? (fun p => p.1 == k) with
    | some p => p.2 rest
    | none => .ok (.options (commanders.map Prod.fst))
  | [] => .ok (.options (commanders.map Prod.fst))

/-- The C6 scenario: the two-level resolution tree
`{"table": {"on": Terminal(A), "off": Terminal(B)}}`. -/
def tableTree : List String → Except String (Cmd Unit Unit) :=
  TreeCommander.get
    [("table", TreeCommander.get
        [("on", SingleCommander.get (.base "A")),
         ("off", SingleCommander.get (.base "B"))])]

/-- C6: on the two-level tree, `get([])` lists `["table"]`; `get(["table"])`
lists `["on", "off"]`; `get(["table", "on"])` returns Command A;
`get(["table", "xyz"])` lists `["on", "off"]`; `get(["table", "on",
"extra"])` is the unresolved-tokens error; and the `"help"` exception to
that error yields an empty-options Command. -/
theorem C6_tree_resolution :
    tableTree [] = .ok (.options ["table"]) ∧
    tableTree ["table"] = .ok (.options ["on", "off"]) ∧
    tableTree ["table", "on"] = .ok (.base "A") ∧
    tableTree ["table", "xyz"] = .ok (.options ["on", "off"]) ∧
    tableTree ["table", "on", "extra"] = .error "Unknown option(s): extra" ∧
    tableTree ["table", "on", "help"] = .ok (.options []) :=
  ⟨rfl, rfl, rfl, rfl, rfl, rfl⟩

/-! Embedding of `src/mode.py` apply methods and `src/cache.py`.  A method's
effect on a bulb is recorded as the list of calls it forwards to the
underlying bulb object. -/

inductive BulbCall where
  | turnOn
  | turnOff
  | toggle
  | whiteBright (brightness : Int)
  | whiteTemp (temperature brightness : Int)
deriving DecidableEq

/-- `BrightMode.apply` from `src/mode.py`: `turn_off()` on zero brightness,
otherwise `white(brightness)`. -/
def BrightMode.apply (brightness : Int) : List BulbCall :=
  if brightness = 0 then [.turnOff] else [.whiteBright brightness]

/-- `WhiteMode.apply` from `src/mode.py`: `turn_off()` on zero brightness,
otherwise `white(temperature, brightness)`. -/
def WhiteMode.apply (temperature brightness : Int) : List BulbCall :=
  if brightness = 0 then [.turnOff] else [.whiteTemp temperature brightness]

/-- C10: applying a `WhiteMode` or a `BrightMode` with brightness `0` calls
`turn_off` and never `white`; with any brightness strictly greater than `0`
it calls `white` (with the mode's temperature and brightness for
`WhiteMode`) and never `turn_off`. -/
theorem C10_zero_brightness_turns_off (temperature brightness : Int)
    (h : 0 < brightness) :
    WhiteMode.apply temperature 0 = [.turnOff] ∧
    BrightMode.apply 0 = [.turnOff] ∧
    WhiteMode.apply temperature brightness =
      [.whiteTemp temperature brightness] ∧
    BrightMode.apply brightness = [.whiteBright brightness] := by
  have hne : brightness ≠ 0 := by omega
  refine ⟨rfl, rfl, ?_, ?_⟩
  · simp [WhiteMode.apply, hne]
  · simp [BrightMode.apply, hne]

/-- C10 witness: temperature `2700`, brightness `50`. -/
theorem C10_zero_brightness_turns_off_witness :
    WhiteMode.apply 2700 0 = [.turnOff] ∧
    BrightMode.apply 0 = [.turnOff] ∧
    WhiteMode.apply 2700 50 = [.whiteTemp 2700 50] ∧
    BrightMode.apply 50 = [.whiteBright 50] :=
  C10_zero_brightness_turns_off 2700 50 (by norm_num)

/-- The cached fields of `CachedBrightBulb` from `src/cache.py`: the last
commanded on/off state and the last commanded brightness. -/
structure CachedBrightBulb where
  state : Option Bool
  brightness : Option Int
deriving DecidableEq

/-- `CachedBrightBulb.turn_on`: forwards only when the cached state `is not
True`; returns the updated cache and the calls forwarded to the wrapped
bulb. -/
def CachedBrightBulb.turn_on (c : CachedBrightBulb) :
    CachedBrightBulb × List BulbCall :=
  if c.state ≠ some true then ({ c with state := some true }, [.turnOn])
  else (c, [])

/-- `CachedBrightBulb.toggle`: delegates unconditionally to the wrapped bulb
and writes no cached field. -/
def CachedBrightBulb.toggle (c : CachedBrightBulb) :
    CachedBrightBulb × List BulbCall :=
  (c, [.toggle])

/-- C9: `toggle` always delegates to the wrapped bulb and leaves both cached
fields unchanged; consequently after a `turn_on` followed by a `toggle`, a
subsequent `turn_on` forwards nothing to the bulb even though it was toggled
off in between. -/
theorem C9_toggle_bypasses_cache (c : CachedBrightBulb) :
    CachedBrightBulb.toggle c = (c, [.toggle]) ∧
    CachedBrightBulb.turn_on
        (CachedBrightBulb.toggle (CachedBrightBulb.turn_on c).1).1 =
      ((CachedBrightBulb.toggle (CachedBrightBulb.turn_on c).1).1, []) := by
  refine ⟨rfl, ?_⟩
  unfold CachedBrightBulb.turn_on CachedBrightBulb.toggle
  by_cases h : c.state = some true
  · simp [h]
  · simp [h]

/-! Embedding of `parallel_all` from `src/parallel.py`.
`multiprocessing.Process(target=run_function, ...).start()` forks the parent
process: each child runs `run_function` on its own copy of the parent's
memory, so the `results.append` inside it mutates only the child's copy;
`join()` waits for the child to finish and then discards that copy — no
state flows back into the parent. -/

structure ProcMem (α : Type) where
  results : List α
deriving DecidableEq

/-- `run_function` from `parallel_all`: appends the task's result to the
`results` list of its own process memory; an exception is caught and logged
(`dump`), never re-raised. -/
def run_function (mem : ProcMem α) (func : Except Unit α) : ProcMem α :=
  match func with
  | .ok v => ⟨mem.results ++ [v]⟩
  | .error _ => mem

/-- `parallel_all` from `src/parallel.py`: starts one process per task, each
running `run_function` on a fork-copy of the parent memory, joins them all,
and returns the parent's `results` list. -/
def parallel_all (functions : List (Except Unit α)) : List α :=
  let parent : ProcMem α := ⟨[]⟩
  let _childMems := functions.map (fun func => run_function parent func)
  parent.results

/-- C5 (code bug): the children do compute their results — each success is
appended in the child's copy of the memory — but nothing flows back across
the process boundary, so `parallel_all` returns the parent's untouched empty
list instead of the successes; with tasks `[ok 1, raise, ok 3]` it returns
`[]`, not `[1, 3]` in some order as claimed. -/
theorem C5_parallel_all_returns_empty :
    (∀ (α : Type) (functions : List (Except Unit α)),
      parallel_all functions = []) ∧
    parallel_all [Except.ok 1, Except.error (), Except.ok 3] =
      ([] : List Int) ∧
    [Except.ok 1, Except.error (), Except.ok 3].map
        (fun func => (run_function ⟨[]⟩ func).results) =
      ([[1], [], [3]] : List (List Int)) :=
  ⟨fun _ _ => rfl, rfl, rfl⟩

end Light
